import Mathlib

/-
Verification development for the OPD token allocation engine.

The JavaScript services are modelled as pure functions over an explicit
database state `DB` holding the three Mongo collections (tokens, slots,
waiting entries).  Each service method becomes a Lean function that takes the
relevant arguments plus the state and returns the result together with the
new state.  Timestamps are integer milliseconds; Mongo object ids are
naturals drawn from a `nextId` counter in the state; Mongo queries with a
`.sort` are modelled as a stable insertion sort (JavaScript `Array.sort` is
stable) followed by `find?`/`filter`, matching the query's comparison on the
record fields.
-/

/-- Token lifecycle statuses from the Token mongoose schema. -/
inductive TokenStatus where
  | booked
  | checked_in
  | completed
  | no_show
  | cancelled
deriving DecidableEq, Repr

/-- Slot statuses from the Slot mongoose schema. -/
inductive SlotStatus where
  | available
  | full
  | closed
  | cancelled
deriving DecidableEq, Repr

/-- Waiting-entry statuses from the Waiting mongoose schema. -/
inductive WaitingStatus where
  | waiting
  | allocated
  | cancelled
  | expired
deriving DecidableEq, Repr

/-- An allocation token (models/Token.js).  `updatedAt` is the mongoose
timestamp refreshed on every save. -/
structure Token where
  id : Nat
  patientId : Nat
  doctorId : Nat
  slotId : Nat
  source : String
  priorityScore : Nat
  status : TokenStatus
  appointmentTime : Int
  isReallocation : Bool
  originalSlotId : Option Nat
  cancellationReason : Option String
  checkedInAt : Option Int
  completedAt : Option Int
  createdAt : Int
  updatedAt : Int
deriving DecidableEq, Repr

/-- A doctor's appointment slot (models/Slot.js).  `currentOccupancy` is kept
as an `Int` because the JavaScript decrements it without a lower bound. -/
structure Slot where
  id : Nat
  doctorId : Nat
  startTime : Int
  endTime : Int
  date : Int
  maxCapacity : Nat
  currentOccupancy : Int
  status : SlotStatus
  allocatedTokens : List Nat
deriving DecidableEq, Repr

/-- A waiting-queue entry (models/Waiting.js). -/
structure Waiting where
  id : Nat
  patientId : Nat
  doctorId : Nat
  source : String
  priorityScore : Nat
  preferredDate : Option Int
  status : WaitingStatus
  queuePosition : Int
  allocatedTokenId : Option Nat
  expiresAt : Int
  createdAt : Int
deriving DecidableEq, Repr

/-- The persistent state: the three collections plus a fresh-id counter
standing in for Mongo object-id generation. -/
structure DB where
  tokens : List Token
  slots : List Slot
  waitings : List Waiting
  nextId : Nat
deriving DecidableEq, Repr

/-- Lookup of a token by id (`Token.findById`). -/
def getToken (db : DB) (i : Nat) : Option Token :=
  db.tokens.find? (fun t => decide (t.id = i))

/-- Lookup of a slot by id (`Slot.findById`). -/
def getSlot (db : DB) (i : Nat) : Option Slot :=
  db.slots.find? (fun s => decide (s.id = i))

/-- Saving a token document: every stored token with the same id is replaced. -/
def saveToken (t : Token) (db : DB) : DB :=
  { db with tokens := db.tokens.map (fun x => if x.id = t.id then t else x) }

/-- Saving a slot document: every stored slot with the same id is replaced. -/
def saveSlot (s : Slot) (db : DB) : DB :=
  { db with slots := db.slots.map (fun x => if x.id = s.id then s else x) }

/-- The status recorded for the waiting entry with a given id. -/
def statusOf (db : DB) (i : Nat) : Option WaitingStatus :=
  (db.waitings.find? (fun w => decide (w.id = i))).map (fun w => w.status)

/-- The waiting entries of one doctor that are still in status `waiting`
(the query `Waiting.find({doctorId, status: 'waiting'})`). -/
def waitingFor (d : Nat) (db : DB) : List Waiting :=
  db.waitings.filter (fun w => decide (w.doctorId = d ∧ w.status = WaitingStatus.waiting))

/-- Own data properties of the priority table object literal in
utils/priority.js (`PRIORITY_LEVELS`): `some` on the five own keys, `none`
when the own-property read yields `undefined`.  A JavaScript read can also
hit the members the object literal inherits from `Object.prototype`; that
full lookup is modelled by `calculatePriorityScoreJS` below. -/
def PRIORITY_LEVELS : String → Option Nat
  | "emergency" => some 100
  | "paid_priority" => some 80
  | "follow_up" => some 60
  | "online" => some 40
  | "walk_in" => some 20
  | _ => none

/-- `calculatePriorityScore(source) = PRIORITY_LEVELS[source] || 0`
restricted to the numeric outcomes (all own scores are nonzero, so `|| 0`
fires exactly on `undefined`).  For a source that names an inherited
`Object.prototype` member the JavaScript instead returns that member — see
`calculatePriorityScoreJS`; the two models agree on every other source
(`calculatePriorityScoreJS_agrees`), in particular on the five enum values
the controllers validate before any allocation call. -/
def calculatePriorityScore (source : String) : Nat :=
  (PRIORITY_LEVELS source).getD 0

/-- The property names every plain object literal inherits from
`Object.prototype` in Node/V8: reading `PRIORITY_LEVELS[k]` for one of
these yields the inherited function or accessor, which is truthy, not
`undefined`. -/
def objectPrototypeKeys : List String :=
  ["constructor", "hasOwnProperty", "isPrototypeOf", "propertyIsEnumerable",
   "toLocaleString", "toString", "valueOf", "__proto__",
   "__defineGetter__", "__defineSetter__", "__lookupGetter__", "__lookupSetter__"]

/-- A JavaScript value that `PRIORITY_LEVELS[source] || 0` can evaluate to:
a number, or the truthy function/object inherited from `Object.prototype`
under the given key. -/
inductive JSScore where
  | num (n : Nat)
  | protoMember (key : String)
deriving DecidableEq, Repr

/-- The full JavaScript evaluation of `PRIORITY_LEVELS[source] || 0`,
prototype chain included: an own key yields its (nonzero, hence truthy)
score; a key naming an `Object.prototype` member yields that inherited,
truthy member, so `|| 0` passes it through unchanged; any other key reads
`undefined` (falsy) and `|| 0` yields the number 0. -/
def calculatePriorityScoreJS (source : String) : JSScore :=
  match source with
  | "emergency" => JSScore.num 100
  | "paid_priority" => JSScore.num 80
  | "follow_up" => JSScore.num 60
  | "online" => JSScore.num 40
  | "walk_in" => JSScore.num 20
  | _ => if source ∈ objectPrototypeKeys then JSScore.protoMember source else JSScore.num 0

/-- Descending-priority comparison used by `sortByPriority` in
utils/priority.js (`(a, b) => b.priorityScore - a.priorityScore`). -/
def tokenPriorityGE (a b : Token) : Prop :=
  b.priorityScore ≤ a.priorityScore

instance : DecidableRel tokenPriorityGE :=
  fun a b => inferInstanceAs (Decidable (b.priorityScore ≤ a.priorityScore))

instance : IsTotal Token tokenPriorityGE :=
  ⟨fun a b => by unfold tokenPriorityGE; omega⟩

instance : IsTrans Token tokenPriorityGE :=
  ⟨fun a b c => by unfold tokenPriorityGE; omega⟩

/-- `sortByPriority` from utils/priority.js: stable sort, highest score
first. -/
def sortByPriority (ts : List Token) : List Token :=
  ts.insertionSort tokenPriorityGE

/-- Ascending-priority comparison used inside the emergency service
(`(a, b) => a.priorityScore - b.priorityScore`). -/
def tokenPriorityLE (a b : Token) : Prop :=
  a.priorityScore ≤ b.priorityScore

instance : DecidableRel tokenPriorityLE :=
  fun a b => inferInstanceAs (Decidable (a.priorityScore ≤ b.priorityScore))

/-- Ascending sort of a slot's tokens in the emergency service. -/
def sortByPriorityAsc (ts : List Token) : List Token :=
  ts.insertionSort tokenPriorityLE

/-- Per-source reallocation threshold table
(`AllocationService.getMinPriorityForReallocation`). -/
def getMinPriorityForReallocation : String → Nat
  | "emergency" => 90
  | "paid_priority" => 70
  | "follow_up" => 50
  | "online" => 30
  | "walk_in" => 10
  | _ => 0

/-- Chronological order on slots used by the Mongo
`.sort({ date: 1, startTime: 1 })`. -/
def slotDateLE (a b : Slot) : Prop :=
  a.date < b.date ∨ (a.date = b.date ∧ a.startTime ≤ b.startTime)

instance : DecidableRel slotDateLE :=
  fun a b => inferInstanceAs (Decidable (a.date < b.date ∨ (a.date = b.date ∧ a.startTime ≤ b.startTime)))

/-- The slot collection in chronological order; `findOne(...).sort(...)`
is modelled as `find?` over this list. -/
def slotsByDate (db : DB) : List Slot :=
  db.slots.insertionSort slotDateLE

/-- A dummy token standing in for JavaScript `undefined` array access. -/
def dummyToken : Token :=
  { id := 0, patientId := 0, doctorId := 0, slotId := 0, source := "", priorityScore := 0,
    status := TokenStatus.booked, appointmentTime := 0, isReallocation := false,
    originalSlotId := none, cancellationReason := none, checkedInAt := none, completedAt := none,
    createdAt := 0, updatedAt := 0 }

/-- The populated `slot.allocatedTokens` array: the token documents whose ids
are stored on the slot, in array order. -/
def populatedTokens (s : Slot) (db : DB) : List Token :=
  s.allocatedTokens.filterMap (fun i => getToken db i)

/-- The last element of the descending sort of a slot's populated tokens —
the occupant the allocation service treats as lowest priority when scanning
a full slot in `findAvailableSlot`. -/
def lowestAllocToken (s : Slot) (db : DB) : Token :=
  (sortByPriority (populatedTokens s db)).getLastD dummyToken

/-- `AllocationService.findAvailableSlot(doctorId, preferredTime, source)`:
first the chronologically earliest slot with spare capacity, otherwise the
earliest full slot whose lowest-priority occupant scores below the source's
reallocation threshold. -/
def findAvailableSlot (doctorId : Nat) (preferredTime : Int) (source : String) (db : DB) : Option Slot :=
  let minP := getMinPriorityForReallocation source
  match (slotsByDate db).find? (fun s => decide (s.doctorId = doctorId ∧ preferredTime ≤ s.date ∧
      (s.status = SlotStatus.available ∨ s.status = SlotStatus.full) ∧
      s.currentOccupancy < (s.maxCapacity : Int))) with
  | some s => some s
  | none =>
    match (slotsByDate db).find? (fun s => decide (s.doctorId = doctorId ∧ preferredTime ≤ s.date ∧
        s.status = SlotStatus.full ∧ (s.maxCapacity : Int) ≤ s.currentOccupancy)) with
    | some s =>
      if populatedTokens s db ≠ [] then
        if (lowestAllocToken s db).priorityScore < minP then some s else none
      else none
    | none => none

/-- `AllocationService.findNextAvailableSlotAfter(date, doctorId)`. -/
def findNextAvailableSlotAfter (date : Int) (doctorId : Nat) (db : DB) : Option Slot :=
  (slotsByDate db).find? (fun s => decide (s.doctorId = doctorId ∧ date < s.date ∧
    s.status = SlotStatus.available ∧ s.currentOccupancy < (s.maxCapacity : Int)))

/-- The tokens of a slot still occupying it
(`Token.find({slotId, status: {$in: ['booked', 'checked_in']}})`). -/
def slotActiveTokens (slot : Slot) (db : DB) : List Token :=
  db.tokens.filter (fun t => decide (t.slotId = slot.id ∧
    (t.status = TokenStatus.booked ∨ t.status = TokenStatus.checked_in)))

/-- The occupant `reallocateLowerPriorityToken` picks for displacement: the
last element of the descending sort of the slot's active tokens. -/
def lowestActiveToken (slot : Slot) (db : DB) : Token :=
  (sortByPriority (slotActiveTokens slot db)).getLastD dummyToken

/-- `AllocationService.reallocateLowerPriorityToken(slot, newTokenPriority,
newPatientId, doctorId)` — moves the lowest-priority occupant of a full slot
to the next available slot when its score is strictly below the incoming
priority; returns whether it displaced anyone plus the new state. -/
def reallocateLowerPriorityToken (slot : Slot) (newTokenPriority : Nat) (doctorId : Nat) (now : Int) (db : DB) : Bool × DB :=
  let tokens := slotActiveTokens slot db
  if tokens = [] then (false, db)
  else
    let lowest := lowestActiveToken slot db
    if newTokenPriority ≤ lowest.priorityScore then (false, db)
    else
      match findNextAvailableSlotAfter slot.date doctorId db with
      | none => (false, db)
      | some nextSlot =>
        let lowest' : Token :=
          { lowest with
            slotId := nextSlot.id
            appointmentTime := nextSlot.startTime
            isReallocation := true
            originalSlotId := some slot.id
            updatedAt := now }
        let db1 := saveToken lowest' db
        let s1 : Slot :=
          { slot with
            allocatedTokens := slot.allocatedTokens.filter (fun i => i ≠ lowest.id)
            currentOccupancy := slot.currentOccupancy - 1 }
        let s2 := if s1.status = SlotStatus.full ∧ s1.currentOccupancy < (s1.maxCapacity : Int) then
            { s1 with status := SlotStatus.available } else s1
        let db2 := saveSlot s2 db1
        let n1 : Slot :=
          { nextSlot with
            allocatedTokens := nextSlot.allocatedTokens ++ [lowest.id]
            currentOccupancy := nextSlot.currentOccupancy + 1 }
        let n2 := if (n1.maxCapacity : Int) ≤ n1.currentOccupancy then
            { n1 with status := SlotStatus.full } else n1
        (true, saveSlot n2 db2)

/-- `AllocationService.addToWaitingQueue`: the new entry's position is the
current number of `waiting` entries for the doctor plus one, and the entry is
appended with a 7-day expiry.  Returns the new state and the position. -/
def addToWaitingQueue (patientId doctorId : Nat) (source : String) (priorityScore : Nat)
    (preferredDate : Option Int) (now : Int) (db : DB) : DB × Int :=
  let queueCount := (waitingFor doctorId db).length
  let w : Waiting :=
    { id := db.nextId, patientId := patientId, doctorId := doctorId,
      source := source, priorityScore := priorityScore, preferredDate := preferredDate,
      status := WaitingStatus.waiting, queuePosition := (queueCount : Int) + 1,
      allocatedTokenId := none, expiresAt := now + 604800000, createdAt := now }
  ({ db with waitings := db.waitings ++ [w], nextId := db.nextId + 1 }, (queueCount : Int) + 1)

-- basic sanity checks on the priority table
example : calculatePriorityScore "emergency" = 100 := by decide
example : calculatePriorityScore "unknown_source" = 0 := by decide
example : getMinPriorityForReallocation "online" = 30 := by decide

/-- Order by stored queue position, used by the Mongo
`.sort({ queuePosition: 1 })` before renumbering. -/
def waitingPosLE (a b : Waiting) : Prop :=
  a.queuePosition ≤ b.queuePosition

instance : DecidableRel waitingPosLE :=
  fun a b => inferInstanceAs (Decidable (a.queuePosition ≤ b.queuePosition))

/-- Index of the first entry with a given id in a list of waiting entries. -/
def posOfId (i : Nat) : List Waiting → Option Nat
  | [] => none
  | w :: l => if w.id = i then some 0 else (posOfId i l).map (fun n => n + 1)

/-- `updateQueuePositions(doctorId)`: the doctor's `waiting` entries are read
in stored-position order and rewritten with positions `1..N`. -/
def updateQueuePositions (d : Nat) (db : DB) : DB :=
  let ws := (waitingFor d db).insertionSort waitingPosLE
  { db with waitings := db.waitings.map (fun w =>
      if w.doctorId = d ∧ w.status = WaitingStatus.waiting then
        match posOfId w.id ws with
        | some i => { w with queuePosition := (i : Int) + 1 }
        | none => w
      else w) }

/-- Rank order used by `allocateFromWaitingQueue`'s query
`.sort({ priorityScore: -1, queuePosition: 1 })`. -/
def waitingRankLE (a b : Waiting) : Prop :=
  b.priorityScore < a.priorityScore ∨
    (a.priorityScore = b.priorityScore ∧ a.queuePosition ≤ b.queuePosition)

instance : DecidableRel waitingRankLE :=
  fun a b => inferInstanceAs (Decidable (b.priorityScore < a.priorityScore ∨
    (a.priorityScore = b.priorityScore ∧ a.queuePosition ≤ b.queuePosition)))

instance : IsTotal Waiting waitingRankLE :=
  ⟨fun a b => by unfold waitingRankLE; omega⟩

instance : IsTrans Waiting waitingRankLE :=
  ⟨fun a b c => by unfold waitingRankLE; omega⟩

/-- One loop body of `allocateFromWaitingQueue`: a token is created for the
waiting patient, the slot is filled, the entry is marked `allocated`, and the
remaining positions are renumbered. -/
def promoteOne (d : Nat) (w : Waiting) (s : Slot) (now : Int) (db : DB) : DB :=
  let tokenId := db.nextId
  let token : Token :=
    { id := tokenId, patientId := w.patientId, doctorId := d, slotId := s.id,
      source := w.source, priorityScore := w.priorityScore, status := TokenStatus.booked,
      appointmentTime := s.startTime, isReallocation := false, originalSlotId := none,
      cancellationReason := none, checkedInAt := none, completedAt := none,
      createdAt := now, updatedAt := now }
  let db1 : DB := { db with tokens := db.tokens ++ [token], nextId := db.nextId + 1 }
  let s1 : Slot :=
    { s with
      allocatedTokens := s.allocatedTokens ++ [tokenId]
      currentOccupancy := s.currentOccupancy + 1 }
  let s2 := if (s1.maxCapacity : Int) ≤ s1.currentOccupancy then
      { s1 with status := SlotStatus.full } else s1
  let db2 := saveSlot s2 db1
  let db3 : DB := { db2 with waitings := db2.waitings.map (fun x =>
      if x.id = w.id then { x with status := WaitingStatus.allocated, allocatedTokenId := some tokenId }
      else x) }
  updateQueuePositions d db3

/-- The promotion loop of `allocateFromWaitingQueue`: entries are tried in
rank order; the loop stops at the first entry for which `findAvailableSlot`
returns nothing. -/
def promoteLoop (d : Nat) (now : Int) : List Waiting → DB → DB
  | [], db => db
  | w :: rest, db =>
    match findAvailableSlot d (w.preferredDate.getD now) w.source db with
    | none => db
    | some s => promoteLoop d now rest (promoteOne d w s now db)

/-- `AllocationService.allocateFromWaitingQueue(doctorId)`. -/
def allocateFromWaitingQueue (d : Nat) (now : Int) (db : DB) : DB :=
  promoteLoop d now ((waitingFor d db).insertionSort waitingRankLE) db

/-- `CancellationService.requestCancellation`: the pure pre-check run before
any cancellation; it rejects terminal tokens and appointments that already
started, and reads but never writes. -/
def requestCancellation (tokenId : Nat) (now : Int) (db : DB) : Except String Unit :=
  match getToken db tokenId with
  | none => Except.error "Token not found"
  | some t =>
    if t.status = TokenStatus.completed ∨ t.status = TokenStatus.cancelled ∨
        t.status = TokenStatus.no_show then
      Except.error "Cannot cancel a token that is already completed, cancelled, or no-show"
    else if t.appointmentTime - now < 0 then
      Except.error "Cannot cancel appointment that has already started"
    else Except.ok ()

/-- `CancellationService.processCancellation`: marks the token cancelled and
releases its slot.  The pair carries the outcome and the state as it stands
when the function returns or throws. -/
def processCancellation (tokenId : Nat) (reason : String) (now : Int) (db : DB) : Except String Unit × DB :=
  match getToken db tokenId with
  | none => (Except.error "Token not found", db)
  | some t =>
    let t' : Token :=
      { t with
        status := TokenStatus.cancelled
        cancellationReason := some reason
        updatedAt := now }
    let db1 := saveToken t' db
    let db2 :=
      match getSlot db1 t.slotId with
      | none => db1
      | some s =>
        let s1 : Slot :=
          { s with
            allocatedTokens := s.allocatedTokens.filter (fun i => i ≠ tokenId)
            currentOccupancy := s.currentOccupancy - 1 }
        let s2 := if s1.status = SlotStatus.full ∧ s1.currentOccupancy < (s1.maxCapacity : Int) then
            { s1 with status := SlotStatus.available } else s1
        saveSlot s2 db1
    (Except.ok (), db2)

/-- The public cancellation endpoint (`CancellationController.cancelToken`):
check with `requestCancellation`, then `processCancellation`, then promote
from the waiting queue of the token's doctor. -/
def cancelToken (tokenId : Nat) (reason : String) (now : Int) (db : DB) : Except String Unit × DB :=
  match requestCancellation tokenId now db with
  | Except.error e => (Except.error e, db)
  | Except.ok _ =>
    match processCancellation tokenId reason now db with
    | (Except.error e, db1) => (Except.error e, db1)
    | (Except.ok _, db1) =>
      match getToken db1 tokenId with
      | none => (Except.error "Token not found", db1)
      | some t => (Except.ok (), allocateFromWaitingQueue t.doctorId now db1)

/-- `AllocationService.handleNoShow`: marks the token `no_show` with no check
of its current status, releases the slot, and promotes from the queue. -/
def handleNoShow (tokenId : Nat) (now : Int) (db : DB) : Except String Unit × DB :=
  match getToken db tokenId with
  | none => (Except.error "Token not found", db)
  | some t =>
    let t' : Token := { t with status := TokenStatus.no_show, updatedAt := now }
    let db1 := saveToken t' db
    let db2 :=
      match getSlot db1 t.slotId with
      | none => db1
      | some s =>
        let s1 : Slot :=
          { s with
            allocatedTokens := s.allocatedTokens.filter (fun i => i ≠ tokenId)
            currentOccupancy := s.currentOccupancy - 1 }
        let s2 := if s1.status = SlotStatus.full then { s1 with status := SlotStatus.available } else s1
        saveSlot s2 db1
    (Except.ok (), allocateFromWaitingQueue t.doctorId now db2)

/-- `TokenController.updateTokenStatus`: after checking only that the
requested status is one of the five legal strings (the type of
`TokenStatus` here), the new status is written over the old one. -/
def updateTokenStatus (tokenId : Nat) (newStatus : TokenStatus) (now : Int) (db : DB) : Except String TokenStatus × DB :=
  match getToken db tokenId with
  | none => (Except.error "Token not found", db)
  | some t =>
    let t1 : Token := { t with status := newStatus, updatedAt := now }
    let t2 := if newStatus = TokenStatus.checked_in then { t1 with checkedInAt := some now }
      else if newStatus = TokenStatus.completed then { t1 with completedAt := some now }
      else t1
    (Except.ok newStatus, saveToken t2 db)

/-- `CancellationService.requestRefund`: for a cancelled token the refund
percentage is computed from the fractional hours between the (last) update
time — the cancellation time — and the appointment time, exactly as the
JavaScript divides milliseconds by 3,600,000.  The state is returned
untouched: the function only reads. -/
def requestRefund (tokenId : Nat) (db : DB) : Except String Nat × DB :=
  match getToken db tokenId with
  | none => (Except.error "Token not found", db)
  | some t =>
    if t.status ≠ TokenStatus.cancelled then
      (Except.error "Only cancelled tokens can request refunds", db)
    else
      let hoursBeforeAppointment : ℚ := ((t.appointmentTime - t.updatedAt : Int) : ℚ) / 3600000
      let refundPercentage : Nat :=
        if 24 ≤ hoursBeforeAppointment then 100
        else if 12 ≤ hoursBeforeAppointment then 75
        else if 6 ≤ hoursBeforeAppointment then 50
        else 0
      (Except.ok refundPercentage, db)

/-- Modelled from the spec: the refund-tier table of section 4.5 — at least
24 hours before the appointment yields 100%, at least 12 hours 75%, at least
6 hours 50%, otherwise 0% — stated over the millisecond gap between
cancellation and appointment. -/
def refundTierSpec (diffMs : Int) : Nat :=
  if 24 * 3600000 ≤ diffMs then 100
  else if 12 * 3600000 ≤ diffMs then 75
  else if 6 * 3600000 ≤ diffMs then 50
  else 0

/-- `EmergencyService.overrideSlotRules(slotId, emergencyLevel)`: the slot's
capacity is multiplied by 1.5 (critical) or 1.25 (high) and rounded up with
`Math.ceil`; `(3*c+1)/2` and `(5*c+3)/4` are those ceilings in natural
division.  Returns the old and new capacities. -/
def overrideSlotRules (slotId : Nat) (emergencyLevel : String) (db : DB) : Except String (Nat × Nat) × DB :=
  match getSlot db slotId with
  | none => (Except.error "Slot not found", db)
  | some s =>
    let newCap : Nat :=
      if emergencyLevel = "critical" then (3 * s.maxCapacity + 1) / 2
      else if emergencyLevel = "high" then (5 * s.maxCapacity + 3) / 4
      else s.maxCapacity
    (Except.ok (s.maxCapacity, newCap), saveSlot { s with maxCapacity := newCap } db)

/-- `WaitingQueueService.cleanExpiredEntries`: one `updateMany` pass that
flips every overdue `waiting` entry to `expired`; nothing else — in
particular no position — is touched.  Returns the modified count. -/
def cleanExpiredEntries (now : Int) (db : DB) : DB × Nat :=
  ({ db with waitings := db.waitings.map (fun w =>
      if w.status = WaitingStatus.waiting ∧ w.expiresAt < now then
        { w with status := WaitingStatus.expired }
      else w) },
   (db.waitings.filter (fun w => decide (w.status = WaitingStatus.waiting ∧ w.expiresAt < now))).length)

/-- `EmergencyService.fastTrackEmergency({patientId, doctorId, ...})`: the
emergency token is saved into the doctor's currently running slot first; if
the slot was full, the lowest-priority occupant is moved to a later available
slot when one exists — but when none exists the emergency token stays put and
the occupancy is incremented past `maxCapacity` anyway. -/
def fastTrackEmergency (patientId doctorId : Nat) (now : Int) (db : DB) : Except String Unit × DB :=
  match db.slots.find? (fun s => decide (s.doctorId = doctorId ∧ s.startTime ≤ now ∧ now ≤ s.endTime ∧
      (s.status = SlotStatus.available ∨ s.status = SlotStatus.full))) with
  | none => (Except.error "No active slot available", db)
  | some currentSlot =>
    let tokenId := db.nextId
    let emergencyToken : Token :=
      { id := tokenId, patientId := patientId, doctorId := doctorId, slotId := currentSlot.id,
        source := "emergency", priorityScore := 100, status := TokenStatus.booked,
        appointmentTime := now, isReallocation := false, originalSlotId := none,
        cancellationReason := none, checkedInAt := none, completedAt := none,
        createdAt := now, updatedAt := now }
    let db1 : DB := { db with tokens := db.tokens ++ [emergencyToken], nextId := db.nextId + 1 }
    let step :=
      if (currentSlot.maxCapacity : Int) ≤ currentSlot.currentOccupancy then
        let ts := slotActiveTokens currentSlot db1
        if ts = [] then (db1, currentSlot)
        else
          let lowest := (sortByPriorityAsc ts).headD dummyToken
          match (slotsByDate db1).find? (fun s => decide (s.doctorId = doctorId ∧
              currentSlot.date < s.date ∧ s.status = SlotStatus.available)) with
          | none => (db1, currentSlot)
          | some nextSlot =>
            let lowest' : Token :=
              { lowest with
                slotId := nextSlot.id
                appointmentTime := nextSlot.startTime
                isReallocation := true
                updatedAt := now }
            let db2 := saveToken lowest' db1
            let n1 : Slot :=
              { nextSlot with
                allocatedTokens := nextSlot.allocatedTokens ++ [lowest.id]
                currentOccupancy := nextSlot.currentOccupancy + 1 }
            let db3 := saveSlot n1 db2
            (db3,
             { currentSlot with
               allocatedTokens := currentSlot.allocatedTokens.filter (fun i => i ≠ lowest.id)
               currentOccupancy := currentSlot.currentOccupancy - 1 })
      else (db1, currentSlot)
    let cur1 : Slot :=
      { step.2 with
        allocatedTokens := step.2.allocatedTokens ++ [tokenId]
        currentOccupancy := step.2.currentOccupancy + 1 }
    let cur2 := if (cur1.maxCapacity : Int) ≤ cur1.currentOccupancy then
        { cur1 with status := SlotStatus.full } else cur1
    (Except.ok (), saveSlot cur2 step.1)

/-- Mapping an id-preserving function over a list commutes with lookup by a
key extracted from the elements. -/
theorem find?_map_key {α : Type} (l : List α) (g : α → α) (key : α → Nat)
    (hg : ∀ x, key (g x) = key x) (i : Nat) :
    (l.map g).find? (fun x => decide (key x = i)) =
      (l.find? (fun x => decide (key x = i))).map g := by
  rw [List.find?_map]
  have hp : ((fun x => decide (key x = i)) ∘ g) = (fun x => decide (key x = i)) := by
    funext x
    simp [Function.comp, hg x]
  rw [hp]

/-- With duplicate-free keys, looking an element's own key up in a list it
belongs to returns that element. -/
theorem find?_key_self {α : Type} (l : List α) (key : α → Nat)
    (hnd : (l.map key).Nodup) (w : α) (hw : w ∈ l) :
    l.find? (fun x => decide (key x = key w)) = some w := by
  induction l with
  | nil => cases hw
  | cons a t ih =>
    rw [List.map_cons, List.nodup_cons] at hnd
    rcases List.mem_cons.mp hw with rfl | hw'
    · exact List.find?_cons_of_pos t (by simp)
    · have hne : ¬ (decide (key a = key w) = true) := by
        simp only [decide_eq_true_eq]
        intro hcontra
        exact hnd.1 (hcontra ▸ List.mem_map_of_mem key hw')
      rw [List.find?_cons_of_neg t hne]
      exact ih hnd.2 hw'

/-- `getLastD` of a nonempty list does not depend on the default. -/
theorem getLastD_cons_default {α : Type} (a : α) (l : List α) (d1 d2 : α) :
    (a :: l).getLastD d1 = (a :: l).getLastD d2 := by
  cases l with
  | nil => rfl
  | cons b t => simp only [List.getLastD_cons]

/-- `getLastD` of a nonempty list is one of its elements. -/
theorem getLastD_mem_cons {α : Type} (a : α) (l : List α) (d : α) :
    (a :: l).getLastD d ∈ (a :: l) := by
  induction l generalizing a d with
  | nil => simp [List.getLastD]
  | cons b t ih =>
    rw [List.getLastD_cons]
    exact List.mem_cons_of_mem a (ih b a)

/-- In a list sorted by descending priority, the last element has the
smallest priority score. -/
theorem sorted_getLastD_le (l : List Token) (hs : List.Sorted tokenPriorityGE l) :
    ∀ x ∈ l, (l.getLastD dummyToken).priorityScore ≤ x.priorityScore := by
  induction l with
  | nil => intro x hx; cases hx
  | cons a t ih =>
    intro x hx
    rw [List.sorted_cons] at hs
    cases t with
    | nil =>
      rcases List.mem_singleton.mp hx with rfl
      exact Nat.le_refl _
    | cons b t' =>
      have hLast : (a :: b :: t').getLastD dummyToken = (b :: t').getLastD dummyToken := by
        rw [List.getLastD_cons]
        exact getLastD_cons_default b t' a dummyToken
      rcases List.mem_cons.mp hx with rfl | hx'
      · rw [hLast]
        exact hs.1 _ (getLastD_mem_cons b t' dummyToken)
      · rw [hLast]
        exact ih hs.2 x hx'

/-- The occupant `reallocateLowerPriorityToken` selects really is a
lowest-priority active occupant of the slot. -/
theorem lowestActiveToken_min (slot : Slot) (db : DB) :
    ∀ t ∈ slotActiveTokens slot db,
      (lowestActiveToken slot db).priorityScore ≤ t.priorityScore := by
  intro t ht
  have hperm := List.perm_insertionSort tokenPriorityGE (slotActiveTokens slot db)
  have hmem : t ∈ sortByPriority (slotActiveTokens slot db) := by
    unfold sortByPriority
    exact hperm.mem_iff.mpr ht
  exact sorted_getLastD_le _ (List.sorted_insertionSort tokenPriorityGE _) t hmem

/-- Every source string lands on one row of the paired score/threshold
tables: the threshold is always the score minus ten for known sources and
zero for unknown ones. -/
theorem score_threshold_cases (s : String) :
    (calculatePriorityScore s = 100 ∧ getMinPriorityForReallocation s = 90) ∨
    (calculatePriorityScore s = 80 ∧ getMinPriorityForReallocation s = 70) ∨
    (calculatePriorityScore s = 60 ∧ getMinPriorityForReallocation s = 50) ∨
    (calculatePriorityScore s = 40 ∧ getMinPriorityForReallocation s = 30) ∨
    (calculatePriorityScore s = 20 ∧ getMinPriorityForReallocation s = 10) ∨
    (calculatePriorityScore s = 0 ∧ getMinPriorityForReallocation s = 0) := by
  unfold calculatePriorityScore PRIORITY_LEVELS getMinPriorityForReallocation
  split <;> simp_all

/-- The range of `calculatePriorityScore` is the six attainable scores. -/
theorem score_cases (s : String) :
    calculatePriorityScore s = 100 ∨ calculatePriorityScore s = 80 ∨
    calculatePriorityScore s = 60 ∨ calculatePriorityScore s = 40 ∨
    calculatePriorityScore s = 20 ∨ calculatePriorityScore s = 0 := by
  rcases score_threshold_cases s with ⟨h, _⟩ | ⟨h, _⟩ | ⟨h, _⟩ | ⟨h, _⟩ | ⟨h, _⟩ | ⟨h, _⟩ <;> omega

/-- A source outside the five known categories has no table row. -/
theorem PRIORITY_LEVELS_eq_none (s : String) (h1 : s ≠ "emergency") (h2 : s ≠ "paid_priority")
    (h3 : s ≠ "follow_up") (h4 : s ≠ "online") (h5 : s ≠ "walk_in") :
    PRIORITY_LEVELS s = none := by
  unfold PRIORITY_LEVELS
  split <;> simp_all

/-- For a source outside the five own keys the JavaScript lookup falls
through to the prototype chain. -/
theorem calculatePriorityScoreJS_unknown (s : String) (h1 : s ≠ "emergency")
    (h2 : s ≠ "paid_priority") (h3 : s ≠ "follow_up") (h4 : s ≠ "online") (h5 : s ≠ "walk_in") :
    calculatePriorityScoreJS s =
      if s ∈ objectPrototypeKeys then JSScore.protoMember s else JSScore.num 0 := by
  unfold calculatePriorityScoreJS
  split <;> simp_all

/-- On every source that does not name an `Object.prototype` member — in
particular on the five enum values the controllers validate before any
allocation call — the full JavaScript lookup agrees with the numeric model
`calculatePriorityScore`. -/
theorem calculatePriorityScoreJS_agrees (s : String) (h : s ∉ objectPrototypeKeys) :
    calculatePriorityScoreJS s = JSScore.num (calculatePriorityScore s) := by
  unfold calculatePriorityScoreJS calculatePriorityScore PRIORITY_LEVELS
  split <;> simp_all

/-- C10 counterexample: "toString" is outside the five known categories,
yet `PRIORITY_LEVELS["toString"] || 0` evaluates to the truthy member the
object literal inherits from `Object.prototype`, so the `|| 0` default
never fires and the result is not the score 0 — indeed not a number at
all. -/
theorem C10_counterexample :
    ("toString" : String) ∉
      (["emergency", "paid_priority", "follow_up", "online", "walk_in"] : List String) ∧
    calculatePriorityScoreJS "toString" = JSScore.protoMember "toString" ∧
    (∀ n : Nat, calculatePriorityScoreJS "toString" ≠ JSScore.num n) := by
  refine ⟨by decide, by decide, ?_⟩
  intro n h
  have he : calculatePriorityScoreJS "toString" = JSScore.protoMember "toString" := by decide
  rw [he] at h
  simp at h

/-- C10 (amended): the priority scoring is total and never throws.  For an
unknown source that is not the name of an `Object.prototype` member the
lookup returns the number 0, strictly below walk_in's 20 and every known
category's score; but for an unknown source that names an inherited
`Object.prototype` member the truthy inherited member itself comes back —
a non-number, never the score 0. -/
theorem C10_priority_amended (s : String)
    (h : s ≠ "emergency" ∧ s ≠ "paid_priority" ∧ s ≠ "follow_up" ∧ s ≠ "online" ∧ s ≠ "walk_in") :
    (s ∉ objectPrototypeKeys →
      calculatePriorityScoreJS s = JSScore.num 0 ∧
      calculatePriorityScore s = 0 ∧
      calculatePriorityScore s < calculatePriorityScore "walk_in" ∧
      (∀ k, k ∈ (["emergency", "paid_priority", "follow_up", "online", "walk_in"] : List String) →
        calculatePriorityScore s < calculatePriorityScore k)) ∧
    (s ∈ objectPrototypeKeys →
      calculatePriorityScoreJS s = JSScore.protoMember s ∧
      (∀ n : Nat, calculatePriorityScoreJS s ≠ JSScore.num n)) := by
  obtain ⟨h1, h2, h3, h4, h5⟩ := h
  have hz : calculatePriorityScore s = 0 := by
    unfold calculatePriorityScore
    rw [PRIORITY_LEVELS_eq_none s h1 h2 h3 h4 h5]
    rfl
  have hjs := calculatePriorityScoreJS_unknown s h1 h2 h3 h4 h5
  constructor
  · intro hp
    rw [hjs, if_neg hp]
    refine ⟨rfl, hz, ?_, ?_⟩
    · rw [hz]; decide
    · intro k hk
      rw [hz]
      fin_cases hk <;> decide
  · intro hp
    rw [hjs, if_pos hp]
    refine ⟨rfl, ?_⟩
    intro n hcontra
    simp at hcontra

theorem C10_witness :
    ((("referral" : String) ∉ objectPrototypeKeys →
      calculatePriorityScoreJS "referral" = JSScore.num 0 ∧
      calculatePriorityScore "referral" = 0 ∧
      calculatePriorityScore "referral" < calculatePriorityScore "walk_in" ∧
      (∀ k, k ∈ (["emergency", "paid_priority", "follow_up", "online", "walk_in"] : List String) →
        calculatePriorityScore "referral" < calculatePriorityScore k)) ∧
    (("referral" : String) ∈ objectPrototypeKeys →
      calculatePriorityScoreJS "referral" = JSScore.protoMember "referral" ∧
      (∀ n : Nat, calculatePriorityScoreJS "referral" ≠ JSScore.num n))) ∧
    ((("valueOf" : String) ∉ objectPrototypeKeys →
      calculatePriorityScoreJS "valueOf" = JSScore.num 0 ∧
      calculatePriorityScore "valueOf" = 0 ∧
      calculatePriorityScore "valueOf" < calculatePriorityScore "walk_in" ∧
      (∀ k, k ∈ (["emergency", "paid_priority", "follow_up", "online", "walk_in"] : List String) →
        calculatePriorityScore "valueOf" < calculatePriorityScore k)) ∧
    (("valueOf" : String) ∈ objectPrototypeKeys →
      calculatePriorityScoreJS "valueOf" = JSScore.protoMember "valueOf" ∧
      (∀ n : Nat, calculatePriorityScoreJS "valueOf" ≠ JSScore.num n))) :=
  ⟨C10_priority_amended "referral" ⟨by decide, by decide, by decide, by decide, by decide⟩,
   C10_priority_amended "valueOf" ⟨by decide, by decide, by decide, by decide, by decide⟩⟩

/-- C2: displacement is governed by a strict inequality against the incoming
score — (i) a full slot's lowest-priority occupant with score at or above
the incoming priority blocks reallocation and leaves the state untouched,
(ii) any successful displacement targets a genuinely lowest-priority
occupant whose score is strictly below the incoming priority, (iii) the
full-slot branch of `findAvailableSlot` admits a slot only when its lowest
occupant is below the per-source threshold, and (iv) on every score the
engine can actually produce, that threshold test coincides with the strict
comparison against the incoming source's own score, so selection and
displacement apply the same strict-inequality rule. -/
theorem C2_strict_displacement_rule :
    (∀ (slot : Slot) (p d : Nat) (now : Int) (db : DB),
      p ≤ (lowestActiveToken slot db).priorityScore →
      reallocateLowerPriorityToken slot p d now db = (false, db)) ∧
    (∀ (slot : Slot) (p d : Nat) (now : Int) (db : DB) (db' : DB),
      reallocateLowerPriorityToken slot p d now db = (true, db') →
      (lowestActiveToken slot db).priorityScore < p ∧
      (∀ t ∈ slotActiveTokens slot db,
        (lowestActiveToken slot db).priorityScore ≤ t.priorityScore)) ∧
    (∀ (d0 : Nat) (time : Int) (src : String) (db : DB) (s : Slot),
      findAvailableSlot d0 time src db = some s →
      (s.maxCapacity : Int) ≤ s.currentOccupancy →
      (lowestAllocToken s db).priorityScore < getMinPriorityForReallocation src) ∧
    (∀ (src : String) (x : Nat), (∃ s0, x = calculatePriorityScore s0) →
      (x < getMinPriorityForReallocation src ↔ x < calculatePriorityScore src)) := by
  refine ⟨?_, ?_, ?_, ?_⟩
  · intro slot p d now db hge
    by_cases h0 : slotActiveTokens slot db = []
    · simp [reallocateLowerPriorityToken, h0]
    · simp [reallocateLowerPriorityToken, h0, hge]
  · intro slot p d now db db' h
    by_cases h0 : slotActiveTokens slot db = []
    · simp [reallocateLowerPriorityToken, h0] at h
    · by_cases h1 : p ≤ (lowestActiveToken slot db).priorityScore
      · simp [reallocateLowerPriorityToken, h0, h1] at h
      · exact ⟨by omega, lowestActiveToken_min slot db⟩
  · intro d0 time src db s h hfull
    unfold findAvailableSlot at h
    split at h
    · rename_i s0 hs0
      have hp0 := List.find?_some hs0
      simp only [decide_eq_true_eq] at hp0
      obtain ⟨-, -, -, hlt⟩ := hp0
      have hs : s0 = s := by injection h
      subst hs
      omega
    · split at h
      · rename_i s1 hs1
        split at h
        · by_cases hlt : (lowestAllocToken s1 db).priorityScore < getMinPriorityForReallocation src
          · simp only [hlt, if_true] at h
            obtain rfl : s1 = s := by injection h
            exact hlt
          · simp [hlt] at h
        · cases h
      · cases h
  · intro src x hx
    obtain ⟨s0, rfl⟩ := hx
    rcases score_threshold_cases src with ⟨hc, hm⟩ | ⟨hc, hm⟩ | ⟨hc, hm⟩ | ⟨hc, hm⟩ | ⟨hc, hm⟩ | ⟨hc, hm⟩ <;>
      rcases score_cases s0 with h0 | h0 | h0 | h0 | h0 | h0 <;>
      rw [hc, hm, h0] <;> decide

/-- A slot found by id carries that id. -/
theorem getSlot_id (db : DB) (i : Nat) (s : Slot) (h : getSlot db i = some s) : s.id = i := by
  unfold getSlot at h
  have hp := List.find?_some h
  simpa using hp

/-- A token found by id carries that id. -/
theorem getToken_id (db : DB) (i : Nat) (t : Token) (h : getToken db i = some t) : t.id = i := by
  unfold getToken at h
  have hp := List.find?_some h
  simpa using hp

/-- Saving a slot rewrites exactly the looked-up documents with that id. -/
theorem getSlot_saveSlot (db : DB) (s' : Slot) (j : Nat) :
    getSlot (saveSlot s' db) j = (getSlot db j).map (fun x => if x.id = s'.id then s' else x) := by
  unfold getSlot saveSlot
  exact find?_map_key db.slots _ (fun x => x.id)
    (by intro x; by_cases hx : x.id = s'.id <;> simp [hx]) j

/-- Saving a token rewrites exactly the looked-up documents with that id. -/
theorem getToken_saveToken (db : DB) (t' : Token) (j : Nat) :
    getToken (saveToken t' db) j = (getToken db j).map (fun x => if x.id = t'.id then t' else x) := by
  unfold getToken saveToken
  exact find?_map_key db.tokens _ (fun x => x.id)
    (by intro x; by_cases hx : x.id = t'.id <;> simp [hx]) j

/-- C9: the capacity override raises exactly one slot's capacity, to the
ceiling of 1.5 times (critical) or 1.25 times (high) the old capacity; the
new capacity is never below the old one, the slot's occupancy, status and
token list are untouched, every other slot is untouched, no token or waiting
entry changes, and a slot whose occupancy was within capacity stays within
the new capacity. -/
theorem C9_capacity_override (db : DB) (slotId : Nat) (level : String) (s : Slot)
    (hs : getSlot db slotId = some s) (hlev : level = "critical" ∨ level = "high") :
    (overrideSlotRules slotId level db).1 =
      Except.ok (s.maxCapacity,
        if level = "critical" then (3 * s.maxCapacity + 1) / 2 else (5 * s.maxCapacity + 3) / 4) ∧
    getSlot (overrideSlotRules slotId level db).2 slotId =
      some { s with maxCapacity :=
        if level = "critical" then (3 * s.maxCapacity + 1) / 2 else (5 * s.maxCapacity + 3) / 4 } ∧
    s.maxCapacity ≤
      (if level = "critical" then (3 * s.maxCapacity + 1) / 2 else (5 * s.maxCapacity + 3) / 4) ∧
    (∀ j, j ≠ slotId → getSlot (overrideSlotRules slotId level db).2 j = getSlot db j) ∧
    (overrideSlotRules slotId level db).2.tokens = db.tokens ∧
    (overrideSlotRules slotId level db).2.waitings = db.waitings ∧
    (s.currentOccupancy ≤ (s.maxCapacity : Int) →
      s.currentOccupancy ≤
        ((if level = "critical" then (3 * s.maxCapacity + 1) / 2 else (5 * s.maxCapacity + 3) / 4 : Nat) : Int)) := by
  have hsid : s.id = slotId := getSlot_id db slotId s hs
  have hcap : s.maxCapacity ≤
      (if level = "critical" then (3 * s.maxCapacity + 1) / 2 else (5 * s.maxCapacity + 3) / 4) := by
    split <;> omega
  rcases hlev with rfl | rfl
  all_goals {
    unfold overrideSlotRules
    rw [hs]
    refine ⟨by simp, ?_, hcap, ?_, rfl, rfl, ?_⟩
    · rw [getSlot_saveSlot, hs]
      simp
    · intro j hj
      rw [getSlot_saveSlot]
      cases hg : getSlot db j with
      | none => rfl
      | some e =>
        have heid : e.id = j := getSlot_id db j e hg
        simp [heid, hsid, hj]
    · intro hocc
      have := hcap
      split at this <;> omega
  }

/-- A booked online token occupying the slot used in the emergency overflow
scenario. -/
def tokC1 : Token :=
  { id := 1, patientId := 2, doctorId := 1, slotId := 1, source := "online", priorityScore := 40,
    status := TokenStatus.booked, appointmentTime := 10, isReallocation := false,
    originalSlotId := none, cancellationReason := none, checkedInAt := none, completedAt := none,
    createdAt := 0, updatedAt := 0 }

/-- A full capacity-one slot that is currently running. -/
def slotC1 : Slot :=
  { id := 1, doctorId := 1, startTime := 0, endTime := 100, date := 0, maxCapacity := 1,
    currentOccupancy := 1, status := SlotStatus.full, allocatedTokens := [1] }

/-- State for the emergency overflow scenario: one full slot, no later slot
to displace into. -/
def dbC1 : DB := { tokens := [tokC1], slots := [slotC1], waitings := [], nextId := 50 }

/-- C1: evaluating the fast-track emergency path on a full slot with no
later slot to displace into succeeds and leaves the slot's occupancy at 2
with capacity still 1 — occupancy exceeds capacity although no capacity
override was performed. -/
theorem C1_overfull_eval :
    (fastTrackEmergency 7 1 50 dbC1).1 = Except.ok () ∧
    (getSlot (fastTrackEmergency 7 1 50 dbC1).2 1).map
      (fun s => (s.currentOccupancy, s.maxCapacity, s.allocatedTokens.length)) = some (2, 1, 2) ∧
    ¬ ((2 : Int) ≤ ((1 : Nat) : Int)) :=
  ⟨rfl, by decide, by decide⟩

/-- A booked walk-in occupant used in the C2 witness. -/
def tokC2 : Token :=
  { id := 1, patientId := 2, doctorId := 1, slotId := 1, source := "online", priorityScore := 40,
    status := TokenStatus.booked, appointmentTime := 10, isReallocation := false,
    originalSlotId := none, cancellationReason := none, checkedInAt := none, completedAt := none,
    createdAt := 0, updatedAt := 0 }

/-- A full slot holding `tokC2`. -/
def slotC2 : Slot :=
  { id := 1, doctorId := 1, startTime := 0, endTime := 100, date := 0, maxCapacity := 1,
    currentOccupancy := 1, status := SlotStatus.full, allocatedTokens := [1] }

/-- State for the C2 witness. -/
def dbC2 : DB := { tokens := [tokC2], slots := [slotC2], waitings := [], nextId := 50 }

theorem C2_witness :
    reallocateLowerPriorityToken slotC2 40 1 0 dbC2 = (false, dbC2) ∧
    ((20 < getMinPriorityForReallocation "online") ↔ (20 < calculatePriorityScore "online")) :=
  ⟨C2_strict_displacement_rule.1 slotC2 40 1 0 dbC2 (by decide),
   C2_strict_displacement_rule.2.2.2 "online" 20 ⟨"walk_in", by decide⟩⟩

/-- A slot of capacity 4 for the capacity-override witness. -/
def slotC9 : Slot :=
  { id := 1, doctorId := 1, startTime := 0, endTime := 10, date := 0, maxCapacity := 4,
    currentOccupancy := 1, status := SlotStatus.available, allocatedTokens := [] }

/-- State for the capacity-override witness. -/
def dbC9 : DB := { tokens := [], slots := [slotC9], waitings := [], nextId := 2 }

theorem C9_witness :
    (overrideSlotRules 1 "critical" dbC9).1 = Except.ok (4, 6) ∧
    (overrideSlotRules 1 "critical" dbC9).2.tokens = dbC9.tokens ∧
    (overrideSlotRules 1 "critical" dbC9).2.waitings = dbC9.waitings :=
  ⟨(C9_capacity_override dbC9 1 "critical" slotC9 rfl (Or.inl rfl)).1,
   (C9_capacity_override dbC9 1 "critical" slotC9 rfl (Or.inl rfl)).2.2.2.2.1,
   (C9_capacity_override dbC9 1 "critical" slotC9 rfl (Or.inl rfl)).2.2.2.2.2.1⟩

/-- A walk-in entry already waiting when a higher-priority request is
enqueued. -/
def wC4 : Waiting :=
  { id := 1, patientId := 3, doctorId := 1, source := "walk_in", priorityScore := 20,
    preferredDate := none, status := WaitingStatus.waiting, queuePosition := 1,
    allocatedTokenId := none, expiresAt := 1000000, createdAt := 0 }

/-- State for the C4 counterexample. -/
def dbC4 : DB := { tokens := [], slots := [], waitings := [wC4], nextId := 9 }

/-- C4 counterexample: enqueueing an emergency-scored request behind a
single waiting walk-in yields position 2, although no existing entry has a
strictly higher score or an equal score with earlier creation — the claimed
band-insertion position would be 1. -/
theorem C4_counterexample :
    (addToWaitingQueue 8 1 "emergency" 100 none 50 dbC4).2 = 2 ∧
    (dbC4.waitings.filter (fun w => decide (w.doctorId = 1 ∧ w.status = WaitingStatus.waiting ∧
      (100 < w.priorityScore ∨ (w.priorityScore = 100 ∧ w.createdAt < 50))))).length = 0 ∧
    (addToWaitingQueue 8 1 "emergency" 100 none 50 dbC4).2 ≠
      ((dbC4.waitings.filter (fun w => decide (w.doctorId = 1 ∧ w.status = WaitingStatus.waiting ∧
        (100 < w.priorityScore ∨ (w.priorityScore = 100 ∧ w.createdAt < 50))))).length : Int) + 1 := by
  decide

/-- A waiting entry that is already past its expiry. -/
def wC5a : Waiting :=
  { id := 1, patientId := 3, doctorId := 1, source := "walk_in", priorityScore := 20,
    preferredDate := none, status := WaitingStatus.waiting, queuePosition := 1,
    allocatedTokenId := none, expiresAt := 10, createdAt := 0 }

/-- A waiting entry that is still alive. -/
def wC5b : Waiting :=
  { id := 2, patientId := 4, doctorId := 1, source := "online", priorityScore := 40,
    preferredDate := none, status := WaitingStatus.waiting, queuePosition := 2,
    allocatedTokenId := none, expiresAt := 1000, createdAt := 0 }

/-- State for the C5 counterexample. -/
def dbC5 : DB := { tokens := [], slots := [], waitings := [wC5a, wC5b], nextId := 9 }

/-- C5 counterexample: after the expiry sweep removes the position-1 entry,
the sole remaining waiting entry still has position 2, so the positions are
not the dense set 1..N — expiry performs no renumbering. -/
theorem C5_counterexample :
    ((waitingFor 1 (cleanExpiredEntries 100 dbC5).1).map (fun w => w.queuePosition)) = [2] ∧
    ¬ ((waitingFor 1 (cleanExpiredEntries 100 dbC5).1).map (fun w => w.queuePosition)).Perm
      ((List.range (waitingFor 1 (cleanExpiredEntries 100 dbC5).1).length).map
        (fun i => (i : Int) + 1)) := by
  decide

/-- A token already in the terminal `cancelled` state. -/
def tokC6 : Token :=
  { id := 1, patientId := 2, doctorId := 1, slotId := 1, source := "online", priorityScore := 40,
    status := TokenStatus.cancelled, appointmentTime := 10, isReallocation := false,
    originalSlotId := none, cancellationReason := none, checkedInAt := none, completedAt := none,
    createdAt := 0, updatedAt := 0 }

/-- State for the C6 counterexample. -/
def dbC6 : DB := { tokens := [tokC6], slots := [], waitings := [], nextId := 9 }

/-- C6 counterexample: the status-update endpoint happily moves a token that
is already `cancelled` back to `booked` and reports success — terminal
states can be resurrected. -/
theorem C6_counterexample :
    (getToken dbC6 1).map (fun t => t.status) = some TokenStatus.cancelled ∧
    (updateTokenStatus 1 TokenStatus.booked 50 dbC6).1 = Except.ok TokenStatus.booked ∧
    (getToken (updateTokenStatus 1 TokenStatus.booked 50 dbC6).2 1).map (fun t => t.status) =
      some TokenStatus.booked :=
  ⟨by decide, rfl, by decide⟩

/-- The fractional-hours comparison the refund code performs is the same as
an integer comparison on milliseconds. -/
theorem hours_le_iff (diff : Int) (k : ℚ) (m : Int) (hm : (k * 3600000 : ℚ) = (m : ℚ)) :
    (k ≤ (diff : ℚ) / 3600000) ↔ (m ≤ diff) := by
  rw [le_div_iff₀ (by norm_num : (0:ℚ) < 3600000), hm]
  exact_mod_cast Iff.rfl

/-- The refund percentage computed by the code equals the spec's tier table
on every millisecond gap. -/
theorem refund_code_eq_spec (diff : Int) :
    (if (24:ℚ) ≤ (diff : ℚ) / 3600000 then (100:Nat)
     else if (12:ℚ) ≤ (diff : ℚ) / 3600000 then 75
     else if (6:ℚ) ≤ (diff : ℚ) / 3600000 then 50 else 0) = refundTierSpec diff := by
  have h24 := hours_le_iff diff 24 (24 * 3600000) (by norm_num)
  have h12 := hours_le_iff diff 12 (12 * 3600000) (by norm_num)
  have h6 := hours_le_iff diff 6 (6 * 3600000) (by norm_num)
  unfold refundTierSpec
  by_cases c1 : (24 * 3600000 : Int) ≤ diff
  · rw [if_pos (h24.mpr c1), if_pos c1]
  · rw [if_neg (fun hq => c1 (h24.mp hq)), if_neg c1]
    by_cases c2 : (12 * 3600000 : Int) ≤ diff
    · rw [if_pos (h12.mpr c2), if_pos c2]
    · rw [if_neg (fun hq => c2 (h12.mp hq)), if_neg c2]
      by_cases c3 : (6 * 3600000 : Int) ≤ diff
      · rw [if_pos (h6.mpr c3), if_pos c3]
      · rw [if_neg (fun hq => c3 (h6.mp hq)), if_neg c3]

/-- C8: for a cancelled token the refund endpoint returns exactly the
spec's tier of the time remaining between the cancellation (the token's
last update) and the appointment — ≥24h gives 100%, ≥12h 75%, ≥6h 50%,
otherwise 0% — and the state comes back completely unchanged. -/
theorem C8_refund_tiers (db : DB) (tokenId : Nat) (t : Token)
    (h : getToken db tokenId = some t) (hc : t.status = TokenStatus.cancelled) :
    (requestRefund tokenId db).1 = Except.ok (refundTierSpec (t.appointmentTime - t.updatedAt)) ∧
    (requestRefund tokenId db).2 = db := by
  unfold requestRefund
  rw [h]
  have hne : ¬ (t.status ≠ TokenStatus.cancelled) := by simp [hc]
  dsimp only
  rw [if_neg hne]
  exact ⟨congrArg Except.ok (refund_code_eq_spec (t.appointmentTime - t.updatedAt)), rfl⟩

/-- A cancelled token whose appointment is 25 hours after its cancellation. -/
def tokC8 : Token :=
  { id := 1, patientId := 2, doctorId := 1, slotId := 1, source := "online", priorityScore := 40,
    status := TokenStatus.cancelled, appointmentTime := 90000000, isReallocation := false,
    originalSlotId := none, cancellationReason := none, checkedInAt := none, completedAt := none,
    createdAt := 0, updatedAt := 0 }

/-- State for the refund witness. -/
def dbC8 : DB := { tokens := [tokC8], slots := [], waitings := [], nextId := 2 }

theorem C8_witness :
    (requestRefund 1 dbC8).1 = Except.ok (refundTierSpec (tokC8.appointmentTime - tokC8.updatedAt)) ∧
    (requestRefund 1 dbC8).2 = dbC8 ∧
    refundTierSpec (tokC8.appointmentTime - tokC8.updatedAt) = 100 :=
  ⟨(C8_refund_tiers dbC8 1 tokC8 rfl rfl).1,
   (C8_refund_tiers dbC8 1 tokC8 rfl rfl).2,
   by decide⟩

/-- Saving a slot does not change token lookups. -/
theorem getToken_saveSlot (s : Slot) (db : DB) (i : Nat) :
    getToken (saveSlot s db) i = getToken db i := rfl

/-- C7: through the public cancellation endpoint, cancellation succeeds
exactly when the token is still `booked` or `checked_in` and its appointment
has not started; any other attempt — terminal status or started appointment
— returns an error outcome, and on every error the state is returned
unchanged. -/
theorem C7_cancellation_guard (db : DB) (tokenId : Nat) (reason : String) (now : Int) (t : Token)
    (h : getToken db tokenId = some t) :
    ((cancelToken tokenId reason now db).1 = Except.ok () ↔
      ((t.status = TokenStatus.booked ∨ t.status = TokenStatus.checked_in) ∧
        now ≤ t.appointmentTime)) ∧
    (∀ e, (cancelToken tokenId reason now db).1 = Except.error e →
      (cancelToken tokenId reason now db).2 = db) := by
  by_cases hterm : t.status = TokenStatus.completed ∨ t.status = TokenStatus.cancelled ∨
      t.status = TokenStatus.no_show
  · have hreq : requestCancellation tokenId now db =
        Except.error "Cannot cancel a token that is already completed, cancelled, or no-show" := by
      unfold requestCancellation
      rw [h]
      dsimp only
      rw [if_pos hterm]
    have hct : cancelToken tokenId reason now db =
        (Except.error "Cannot cancel a token that is already completed, cancelled, or no-show", db) := by
      unfold cancelToken
      rw [hreq]
    rw [hct]
    refine ⟨⟨fun habs => absurd habs (by simp), fun hok => ?_⟩, fun e _ => rfl⟩
    exfalso
    rcases hok.1 with hb | hb <;> rcases hterm with h1 | h1 | h1 <;> rw [hb] at h1 <;> cases h1
  · by_cases htime : t.appointmentTime - now < 0
    · have hreq : requestCancellation tokenId now db =
          Except.error "Cannot cancel appointment that has already started" := by
        unfold requestCancellation
        rw [h]
        dsimp only
        rw [if_neg hterm, if_pos htime]
      have hct : cancelToken tokenId reason now db =
          (Except.error "Cannot cancel appointment that has already started", db) := by
        unfold cancelToken
        rw [hreq]
      rw [hct]
      refine ⟨⟨fun habs => absurd habs (by simp), fun hok => ?_⟩, fun e _ => rfl⟩
      exact absurd hok.2 (by omega)
    · have hreq : requestCancellation tokenId now db = Except.ok () := by
        unfold requestCancellation
        rw [h]
        dsimp only
        rw [if_neg hterm, if_neg htime]
      have hp1 : (processCancellation tokenId reason now db).1 = Except.ok () := by
        unfold processCancellation
        rw [h]
      have hp2 : getToken (processCancellation tokenId reason now db).2 tokenId =
          some { t with status := TokenStatus.cancelled, cancellationReason := some reason, updatedAt := now } := by
        unfold processCancellation
        rw [h]
        dsimp only
        cases hslot : getSlot
            (saveToken { t with status := TokenStatus.cancelled, cancellationReason := some reason, updatedAt := now } db)
            t.slotId with
        | none =>
          dsimp only
          rw [getToken_saveToken, h]
          simp
        | some s =>
          dsimp only
          rw [getToken_saveSlot, getToken_saveToken, h]
          simp
      rcases hproc : processCancellation tokenId reason now db with ⟨r, db1⟩
      rw [hproc] at hp1 hp2
      dsimp only at hp1
      subst hp1
      have hct : cancelToken tokenId reason now db =
          (Except.ok (), allocateFromWaitingQueue
            ({ t with status := TokenStatus.cancelled, cancellationReason := some reason, updatedAt := now } : Token).doctorId
            now db1) := by
        unfold cancelToken
        rw [hreq, hproc]
        dsimp only at hp2 ⊢
        rw [hp2]
      rw [hct]
      refine ⟨⟨fun _ => ⟨?_, by omega⟩, fun _ => rfl⟩, fun e he => absurd he (by simp)⟩
      cases hs0 : t.status with
      | booked => exact Or.inl rfl
      | checked_in => exact Or.inr rfl
      | completed => exact absurd (Or.inl hs0) hterm
      | cancelled => exact absurd (Or.inr (Or.inl hs0)) hterm
      | no_show => exact absurd (Or.inr (Or.inr hs0)) hterm

/-- A booked token with its appointment still in the future. -/
def tokC7 : Token :=
  { id := 1, patientId := 2, doctorId := 1, slotId := 1, source := "online", priorityScore := 40,
    status := TokenStatus.booked, appointmentTime := 100, isReallocation := false,
    originalSlotId := none, cancellationReason := none, checkedInAt := none, completedAt := none,
    createdAt := 0, updatedAt := 0 }

/-- The full slot holding `tokC7`. -/
def slotC7 : Slot :=
  { id := 1, doctorId := 1, startTime := 100, endTime := 200, date := 0, maxCapacity := 1,
    currentOccupancy := 1, status := SlotStatus.full, allocatedTokens := [1] }

/-- State for the cancellation witness. -/
def dbC7 : DB := { tokens := [tokC7], slots := [slotC7], waitings := [], nextId := 9 }

theorem C7_witness :
    ((cancelToken 1 "changed plans" 50 dbC7).1 = Except.ok () ↔
      ((tokC7.status = TokenStatus.booked ∨ tokC7.status = TokenStatus.checked_in) ∧
        (50 : Int) ≤ tokC7.appointmentTime)) ∧
    (∀ e, (cancelToken 1 "changed plans" 50 dbC7).1 = Except.error e →
      (cancelToken 1 "changed plans" 50 dbC7).2 = dbC7) :=
  C7_cancellation_guard dbC7 1 "changed plans" 50 tokC7 rfl

/-- A find over an appended list still returns the hit from the first part. -/
theorem find?_append_some {α : Type} (l1 l2 : List α) (p : α → Bool) (a : α)
    (h : l1.find? p = some a) : (l1 ++ l2).find? p = some a := by
  rw [List.find?_append, h]
  rfl

/-- Renumbering queue positions does not change token lookups. -/
theorem getToken_updateQueuePositions (d : Nat) (db : DB) (i : Nat) :
    getToken (updateQueuePositions d db) i = getToken db i := rfl

/-- Promoting one waiting entry only appends a fresh token, so an existing
token lookup is unchanged. -/
theorem getToken_promoteOne (d : Nat) (w : Waiting) (s : Slot) (now : Int) (db : DB) (i : Nat)
    (t : Token) (h : getToken db i = some t) :
    getToken (promoteOne d w s now db) i = some t := by
  unfold promoteOne updateQueuePositions saveSlot getToken
  dsimp only
  exact find?_append_some _ _ _ _ h

/-- The promotion loop never rewrites an existing token document. -/
theorem getToken_promoteLoop (d : Nat) (now : Int) (l : List Waiting) (db : DB) (i : Nat)
    (t : Token) (h : getToken db i = some t) :
    getToken (promoteLoop d now l db) i = some t := by
  induction l generalizing db with
  | nil => exact h
  | cons w rest ih =>
    unfold promoteLoop
    cases hf : findAvailableSlot d (w.preferredDate.getD now) w.source db with
    | none => exact h
    | some s0 => exact ih _ (getToken_promoteOne d w s0 now db i t h)

/-- Promotion from the waiting queue never rewrites an existing token. -/
theorem getToken_allocateFromWaitingQueue (d : Nat) (now : Int) (db : DB) (i : Nat) (t : Token)
    (h : getToken db i = some t) :
    getToken (allocateFromWaitingQueue d now db) i = some t :=
  getToken_promoteLoop d now _ db i t h

/-- C6 (amended): status updates are unrestricted — for any current token
state, `updateTokenStatus` reports success and writes whatever valid status
was requested, and `handleNoShow` marks the token `no_show`; neither
consults the previous status, so terminal states offer no protection. -/
theorem C6_status_unrestricted (db : DB) (tokenId : Nat) (s : TokenStatus) (now : Int) (t : Token)
    (h : getToken db tokenId = some t) :
    ((updateTokenStatus tokenId s now db).1 = Except.ok s ∧
      (getToken (updateTokenStatus tokenId s now db).2 tokenId).map (fun x => x.status) = some s) ∧
    ((handleNoShow tokenId now db).1 = Except.ok () ∧
      (getToken (handleNoShow tokenId now db).2 tokenId).map (fun x => x.status) =
        some TokenStatus.no_show) := by
  refine ⟨⟨?_, ?_⟩, ?_, ?_⟩
  · unfold updateTokenStatus
    rw [h]
  · unfold updateTokenStatus
    rw [h]
    dsimp only
    rw [getToken_saveToken, h]
    cases s <;> simp
  · unfold handleNoShow
    rw [h]
  · unfold handleNoShow
    rw [h]
    dsimp only
    have hsave : getToken (saveToken { t with status := TokenStatus.no_show, updatedAt := now } db) tokenId
        = some { t with status := TokenStatus.no_show, updatedAt := now } := by
      rw [getToken_saveToken, h]
      simp
    cases hslot : getSlot (saveToken { t with status := TokenStatus.no_show, updatedAt := now } db) t.slotId with
    | none =>
      dsimp only
      rw [getToken_allocateFromWaitingQueue _ _ _ _ _ hsave]
      rfl
    | some s0 =>
      dsimp only
      have hsave2 : getToken (saveSlot
          (if s0.status = SlotStatus.full then
            { s0 with
              allocatedTokens := s0.allocatedTokens.filter (fun i => i ≠ tokenId)
              currentOccupancy := s0.currentOccupancy - 1
              status := SlotStatus.available }
          else
            { s0 with
              allocatedTokens := s0.allocatedTokens.filter (fun i => i ≠ tokenId)
              currentOccupancy := s0.currentOccupancy - 1 })
          (saveToken { t with status := TokenStatus.no_show, updatedAt := now } db)) tokenId
          = some { t with status := TokenStatus.no_show, updatedAt := now } := by
        rw [getToken_saveSlot]
        exact hsave
      rw [getToken_allocateFromWaitingQueue _ _ _ _ _ hsave2]
      rfl

theorem C6_witness :
    ((updateTokenStatus 1 TokenStatus.booked 50 dbC6).1 = Except.ok TokenStatus.booked ∧
      (getToken (updateTokenStatus 1 TokenStatus.booked 50 dbC6).2 1).map (fun x => x.status) =
        some TokenStatus.booked) ∧
    ((handleNoShow 1 50 dbC6).1 = Except.ok () ∧
      (getToken (handleNoShow 1 50 dbC6).2 1).map (fun x => x.status) =
        some TokenStatus.no_show) :=
  C6_status_unrestricted dbC6 1 TokenStatus.booked 50 tokC6 rfl

/-- C4 (amended): a request that fails admission is appended at the end of
the doctor's whole waiting queue — its reported position is one plus the
number of existing `waiting` entries for that doctor, regardless of
priority; when the existing positions are exactly 1..N, the queue stays
dense 1..N+1 after the enqueue. -/
theorem C4_enqueue_append (patientId d : Nat) (src : String) (score : Nat) (pref : Option Int)
    (now : Int) (db : DB) (N : Nat)
    (h : ((waitingFor d db).map (fun w => w.queuePosition)).Perm
      ((List.range N).map (fun i : Nat => (i : Int) + 1))) :
    (addToWaitingQueue patientId d src score pref now db).2 = ((waitingFor d db).length : Int) + 1 ∧
    (waitingFor d db).length = N ∧
    ((waitingFor d (addToWaitingQueue patientId d src score pref now db).1).map
        (fun w => w.queuePosition)).Perm
      ((List.range (N + 1)).map (fun i : Nat => (i : Int) + 1)) := by
  have hlen : (waitingFor d db).length = N := by
    have hle := h.length_eq
    rw [List.length_map, List.length_map, List.length_range] at hle
    exact hle
  refine ⟨rfl, hlen, ?_⟩
  have hsplit : waitingFor d (addToWaitingQueue patientId d src score pref now db).1
      = waitingFor d db ++
        [⟨db.nextId, patientId, d, src, score, pref, WaitingStatus.waiting,
          ((waitingFor d db).length : Int) + 1, none, now + 604800000, now⟩] := by
    unfold addToWaitingQueue waitingFor
    rw [List.filter_append]
    congr 1
    exact List.filter_cons_of_pos (decide_eq_true ⟨rfl, rfl⟩)
  rw [hsplit, List.map_append]
  have htail : (List.range (N + 1)).map (fun i : Nat => (i : Int) + 1)
      = (List.range N).map (fun i : Nat => (i : Int) + 1) ++ [(N : Int) + 1] := by
    rw [List.range_succ, List.map_append]
    rfl
  rw [htail]
  refine List.Perm.append h ?_
  rw [List.map_singleton, hlen]

/-- Empty state for the enqueue witness. -/
def dbC4w : DB := { tokens := [], slots := [], waitings := [], nextId := 1 }

theorem C4_witness :
    ((waitingFor 1 dbC4w).map (fun w => w.queuePosition)).Perm
      ((List.range 0).map (fun i : Nat => (i : Int) + 1)) ∧
    (addToWaitingQueue 5 1 "online" 40 none 0 dbC4w).2 = ((waitingFor 1 dbC4w).length : Int) + 1 :=
  ⟨by decide, (C4_enqueue_append 5 1 "online" 40 none 0 dbC4w 0 (by decide)).1⟩

/-- On a list of waiting entries with duplicate-free ids, looking up the
index of the j-th entry's id yields j. -/
theorem posOfId_getElem (l : List Waiting) (hnd : (l.map (fun w => w.id)).Nodup)
    (j : Nat) (hj : j < l.length) :
    posOfId (l[j].id) l = some j := by
  induction l generalizing j with
  | nil => exact absurd hj (Nat.not_lt_zero j)
  | cons a t ih =>
    rw [List.map_cons, List.nodup_cons] at hnd
    cases j with
    | zero =>
      simp [posOfId]
    | succ k =>
      have hk : k < t.length := by simpa using hj
      have hne : ¬ (a.id = (a :: t)[k + 1].id) := by
        intro hcontra
        exact hnd.1 (hcontra ▸ List.mem_map_of_mem _ (List.getElem_mem hk))
      unfold posOfId
      rw [if_neg hne]
      have hrec : posOfId ((a :: t)[k + 1].id) t = some k := ih hnd.2 k hk
      rw [hrec]
      rfl

/-- Filtering a doctor's waiting entries commutes with any rewrite that
keeps `doctorId` and `status`. -/
theorem waitingFor_map (d : Nat) (db : DB) (g : Waiting → Waiting)
    (hgd : ∀ x, (g x).doctorId = x.doctorId) (hgs : ∀ x, (g x).status = x.status) :
    waitingFor d { db with waitings := db.waitings.map g } = (waitingFor d db).map g := by
  unfold waitingFor
  dsimp only
  rw [List.filter_map]
  refine congrArg (List.map g) ?_
  refine List.filter_congr ?_
  intro x hx
  simp [Function.comp, hgd x, hgs x]

/-- `updateQueuePositions` leaves the doctor's `waiting` entries with
positions forming exactly 1..N (as a multiset), provided the stored ids are
duplicate-free. -/
theorem updateQueuePositions_positions (d : Nat) (db : DB)
    (hnd : (db.waitings.map (fun w => w.id)).Nodup) :
    ((waitingFor d (updateQueuePositions d db)).map (fun w => w.queuePosition)).Perm
      ((List.range (waitingFor d db).length).map (fun i : Nat => (i : Int) + 1)) := by
  have hndF : ((waitingFor d db).map (fun w => w.id)).Nodup :=
    List.Nodup.sublist (List.Sublist.map _ (List.filter_sublist db.waitings)) hnd
  have hperm : ((waitingFor d db).insertionSort waitingPosLE).Perm (waitingFor d db) :=
    List.perm_insertionSort waitingPosLE _
  have hndws : ((((waitingFor d db).insertionSort waitingPosLE)).map (fun w => w.id)).Nodup :=
    ((hperm.map (fun w => w.id)).nodup_iff).mpr hndF
  have hfilter : waitingFor d (updateQueuePositions d db) = (waitingFor d db).map (fun w =>
      if w.doctorId = d ∧ w.status = WaitingStatus.waiting then
        match posOfId w.id ((waitingFor d db).insertionSort waitingPosLE) with
        | some i => { w with queuePosition := (i : Int) + 1 }
        | none => w
      else w) :=
    waitingFor_map d db _
      (fun x => by
        split
        · split <;> rfl
        · rfl)
      (fun x => by
        split
        · split <;> rfl
        · rfl)
  rw [hfilter]
  refine ((hperm.symm.map _).map _).trans ?_
  have hmain : ((((waitingFor d db).insertionSort waitingPosLE).map (fun w =>
      if w.doctorId = d ∧ w.status = WaitingStatus.waiting then
        match posOfId w.id ((waitingFor d db).insertionSort waitingPosLE) with
        | some i => { w with queuePosition := (i : Int) + 1 }
        | none => w
      else w)).map (fun w => w.queuePosition))
      = (List.range (waitingFor d db).length).map (fun i : Nat => (i : Int) + 1) := by
    apply List.ext_getElem
    · rw [List.length_map, List.length_map, List.length_insertionSort,
        List.length_map, List.length_range]
    · intro j h1 h2
      have hjlen : j < ((waitingFor d db).insertionSort waitingPosLE).length := by
        rw [List.length_map, List.length_map] at h1
        exact h1
      simp only [List.getElem_map, List.getElem_range]
      have hmem : ((waitingFor d db).insertionSort waitingPosLE)[j] ∈ waitingFor d db :=
        hperm.mem_iff.mp (List.getElem_mem hjlen)
      have hmem2 : ((waitingFor d db).insertionSort waitingPosLE)[j] ∈
          db.waitings.filter (fun w => decide (w.doctorId = d ∧ w.status = WaitingStatus.waiting)) :=
        hmem
      have hcond : (((waitingFor d db).insertionSort waitingPosLE)[j]).doctorId = d ∧
          (((waitingFor d db).insertionSort waitingPosLE)[j]).status = WaitingStatus.waiting := by
        have hq := List.of_mem_filter hmem2
        simpa using hq
      have hpos := posOfId_getElem _ hndws j hjlen
      rw [if_pos hcond, hpos]
  exact hmain ▸ List.Perm.refl _

/-- The expiry sweep only flips statuses: every entry keeps its queue
position. -/
theorem cleanExpired_keeps_positions (now : Int) (db : DB) (i : Nat) :
    (((cleanExpiredEntries now db).1.waitings.find? (fun w => decide (w.id = i))).map
      (fun w => w.queuePosition))
    = ((db.waitings.find? (fun w => decide (w.id = i))).map (fun w => w.queuePosition)) := by
  have hmap := find?_map_key db.waitings
    (fun w => if w.status = WaitingStatus.waiting ∧ w.expiresAt < now then
      { w with status := WaitingStatus.expired } else w)
    (fun w => w.id)
    (fun x => by dsimp only; split <;> rfl) i
  rw [show (cleanExpiredEntries now db).1.waitings
      = db.waitings.map (fun w => if w.status = WaitingStatus.waiting ∧ w.expiresAt < now then
        { w with status := WaitingStatus.expired } else w) from rfl]
  rw [hmap]
  cases hf : db.waitings.find? (fun w => decide (w.id = i)) with
  | none => rfl
  | some e =>
    dsimp only [Option.map]
    split <;> rfl

/-- C5 (amended): the renumbering pass run on promotion and withdrawal
leaves the doctor's `waiting` positions exactly the dense set 1..N, while
the expiry sweep keeps every stored position untouched — so expiry alone
can leave gaps. -/
theorem C5_renumbering (d : Nat) (now : Int) (db : DB)
    (hnd : (db.waitings.map (fun w => w.id)).Nodup) :
    ((waitingFor d (updateQueuePositions d db)).map (fun w => w.queuePosition)).Perm
      ((List.range (waitingFor d db).length).map (fun i : Nat => (i : Int) + 1)) ∧
    (∀ i : Nat, (((cleanExpiredEntries now db).1.waitings.find? (fun w => decide (w.id = i))).map
        (fun w => w.queuePosition))
      = ((db.waitings.find? (fun w => decide (w.id = i))).map (fun w => w.queuePosition))) :=
  ⟨updateQueuePositions_positions d db hnd, fun i => cleanExpired_keeps_positions now db i⟩

theorem C5_witness :
    ((waitingFor 1 (updateQueuePositions 1 dbC5)).map (fun w => w.queuePosition)).Perm
      ((List.range (waitingFor 1 dbC5).length).map (fun i : Nat => (i : Int) + 1)) ∧
    (∀ i : Nat, (((cleanExpiredEntries 100 dbC5).1.waitings.find? (fun w => decide (w.id = i))).map
        (fun w => w.queuePosition))
      = ((dbC5.waitings.find? (fun w => decide (w.id = i))).map (fun w => w.queuePosition))) :=
  C5_renumbering 1 100 dbC5 (by decide)

/-- Renumbering queue positions changes no entry's status. -/
theorem statusOf_updateQueuePositions (d : Nat) (db : DB) (i : Nat) :
    statusOf (updateQueuePositions d db) i = statusOf db i := by
  unfold statusOf updateQueuePositions
  dsimp only
  rw [find?_map_key db.waitings _ (fun w => w.id)
    (fun x => by
      split
      · split <;> rfl
      · rfl) i]
  cases hf : db.waitings.find? (fun w => decide (w.id = i)) with
  | none => rfl
  | some e =>
    simp only [Option.map_some']
    congr 1
    split
    · split <;> rfl
    · rfl

/-- What one promotion step does to any entry's recorded status. -/
theorem statusOf_promoteOne_eq (d : Nat) (w : Waiting) (s : Slot) (now : Int) (db : DB) (i : Nat) :
    statusOf (promoteOne d w s now db) i =
      ((db.waitings.find? (fun x => decide (x.id = i))).map (fun x =>
        if x.id = w.id then
          { x with status := WaitingStatus.allocated, allocatedTokenId := some db.nextId }
        else x)).map (fun x => x.status) := by
  unfold promoteOne saveSlot
  dsimp only
  rw [statusOf_updateQueuePositions]
  unfold statusOf
  dsimp only
  rw [find?_map_key db.waitings _ (fun x => x.id)
    (fun x => by
      split
      · rfl
      · rfl) i]

/-- The promoted entry itself ends up `allocated`. -/
theorem statusOf_promoteOne_self (d : Nat) (w : Waiting) (s : Slot) (now : Int) (db : DB)
    (h : (statusOf db w.id).isSome) :
    statusOf (promoteOne d w s now db) w.id = some WaitingStatus.allocated := by
  rw [statusOf_promoteOne_eq]
  unfold statusOf at h
  cases hf : db.waitings.find? (fun x => decide (x.id = w.id)) with
  | none =>
    rw [hf] at h
    simp at h
  | some e =>
    have heid : e.id = w.id := by simpa using List.find?_some hf
    simp [heid]

/-- Every other entry's status is untouched by one promotion step. -/
theorem statusOf_promoteOne_ne (d : Nat) (w : Waiting) (s : Slot) (now : Int) (db : DB) (i : Nat)
    (hne : i ≠ w.id) :
    statusOf (promoteOne d w s now db) i = statusOf db i := by
  rw [statusOf_promoteOne_eq]
  unfold statusOf
  cases hf : db.waitings.find? (fun x => decide (x.id = i)) with
  | none => rfl
  | some e =>
    have heid : e.id = i := by simpa using List.find?_some hf
    have hne2 : ¬ (e.id = w.id) := by
      rw [heid]
      exact hne
    simp [hne2]

/-- The promotion loop never touches the status of an id outside its list. -/
theorem statusOf_promoteLoop_notin (d : Nat) (now : Int) (l : List Waiting) (db : DB) (i : Nat)
    (hni : ∀ x ∈ l, x.id ≠ i) :
    statusOf (promoteLoop d now l db) i = statusOf db i := by
  induction l generalizing db with
  | nil => rfl
  | cons w rest ih =>
    unfold promoteLoop
    cases hf : findAvailableSlot d (w.preferredDate.getD now) w.source db with
    | none => rfl
    | some s0 =>
      rw [ih _ (fun x hx => hni x (List.mem_cons_of_mem w hx))]
      refine statusOf_promoteOne_ne d w s0 now db i ?_
      intro hcontra
      exact hni w (List.mem_cons_self w rest) hcontra.symm

/-- The promotion loop settles a prefix of its rank-ordered list: some
initial segment is promoted to `allocated` and everything after the first
failure is still `waiting`. -/
theorem promoteLoop_prefix (d : Nat) (now : Int) :
    ∀ (l : List Waiting) (db : DB),
      (l.map (fun x => x.id)).Nodup →
      (∀ x ∈ l, statusOf db x.id = some WaitingStatus.waiting) →
      ∃ k, k ≤ l.length ∧
        (∀ x ∈ l.take k, statusOf (promoteLoop d now l db) x.id = some WaitingStatus.allocated) ∧
        (∀ x ∈ l.drop k, statusOf (promoteLoop d now l db) x.id = some WaitingStatus.waiting) := by
  intro l
  induction l with
  | nil =>
    intro db _ _
    refine ⟨0, Nat.le_refl 0, ?_, ?_⟩
    · intro x hx
      cases hx
    · intro x hx
      cases hx
  | cons w rest ih =>
    intro db hnd hstat
    rw [List.map_cons, List.nodup_cons] at hnd
    unfold promoteLoop
    cases hf : findAvailableSlot d (w.preferredDate.getD now) w.source db with
    | none =>
      refine ⟨0, Nat.zero_le _, ?_, ?_⟩
      · intro x hx
        rw [List.take_zero] at hx
        cases hx
      · intro x hx
        rw [List.drop_zero] at hx
        exact hstat x hx
    | some s0 =>
      have hstat2 : ∀ x ∈ rest, statusOf (promoteOne d w s0 now db) x.id =
          some WaitingStatus.waiting := by
        intro x hx
        have hxne : x.id ≠ w.id := by
          intro hcontra
          exact hnd.1 (hcontra ▸ List.mem_map_of_mem _ hx)
        rw [statusOf_promoteOne_ne d w s0 now db x.id hxne]
        exact hstat x (List.mem_cons_of_mem w hx)
      obtain ⟨k, hk, htake, hdrop⟩ := ih (promoteOne d w s0 now db) hnd.2 hstat2
      refine ⟨k + 1, Nat.succ_le_succ hk, ?_, ?_⟩
      · intro x hx
        rw [List.take_succ_cons] at hx
        rcases List.mem_cons.mp hx with rfl | hx'
        · rw [statusOf_promoteLoop_notin d now rest (promoteOne d x s0 now db) x.id
            (fun y hy hcontra => hnd.1 (hcontra ▸ List.mem_map_of_mem _ hy))]
          refine statusOf_promoteOne_self d x s0 now db ?_
          rw [hstat x (List.mem_cons_self x rest)]
          rfl
        · exact htake x hx'
      · intro x hx
        rw [List.drop_succ_cons] at hx
        exact hdrop x hx

/-- C3: promotion considers the doctor's waiting entries exactly in rank
order — the list walked is sorted by score descending with ties by stored
position — each successfully placed entry leaves the `waiting` state
(becoming `allocated`), and the walk stops at the first entry that cannot be
admitted: the promoted entries form a prefix of the rank order and every
entry after the first failure is still `waiting` — no lower-ranked entry is
promoted over a stuck higher-ranked one. -/
theorem C3_promotion_rank_order (d : Nat) (now : Int) (db : DB)
    (hnd : (db.waitings.map (fun w => w.id)).Nodup) :
    List.Sorted waitingRankLE ((waitingFor d db).insertionSort waitingRankLE) ∧
    ∃ k, k ≤ ((waitingFor d db).insertionSort waitingRankLE).length ∧
      (∀ x ∈ ((waitingFor d db).insertionSort waitingRankLE).take k,
        statusOf (allocateFromWaitingQueue d now db) x.id = some WaitingStatus.allocated) ∧
      (∀ x ∈ ((waitingFor d db).insertionSort waitingRankLE).drop k,
        statusOf (allocateFromWaitingQueue d now db) x.id = some WaitingStatus.waiting) := by
  constructor
  · exact List.sorted_insertionSort waitingRankLE _
  · have hperm : ((waitingFor d db).insertionSort waitingRankLE).Perm (waitingFor d db) :=
      List.perm_insertionSort waitingRankLE _
    have hndF : ((waitingFor d db).map (fun w => w.id)).Nodup :=
      List.Nodup.sublist (List.Sublist.map _ (List.filter_sublist db.waitings)) hnd
    have hndS : (((waitingFor d db).insertionSort waitingRankLE).map (fun w => w.id)).Nodup :=
      ((hperm.map _).nodup_iff).mpr hndF
    have hstat : ∀ x ∈ (waitingFor d db).insertionSort waitingRankLE,
        statusOf db x.id = some WaitingStatus.waiting := by
      intro x hx
      have hxF : x ∈ waitingFor d db := hperm.mem_iff.mp hx
      have hxF2 : x ∈ db.waitings.filter
          (fun w => decide (w.doctorId = d ∧ w.status = WaitingStatus.waiting)) := hxF
      have hxw : x ∈ db.waitings := List.mem_of_mem_filter hxF2
      have hxst : x.status = WaitingStatus.waiting := by
        have hq := List.of_mem_filter hxF2
        have hq2 := of_decide_eq_true hq
        exact hq2.2
      have hfind : db.waitings.find? (fun y => decide (y.id = x.id)) = some x :=
        find?_key_self db.waitings (fun y => y.id) hnd x hxw
      unfold statusOf
      rw [hfind]
      simp [hxst]
    exact promoteLoop_prefix d now ((waitingFor d db).insertionSort waitingRankLE) db hndS hstat

/-- A single waiting entry for a doctor with no slots at all. -/
def wC3 : Waiting :=
  { id := 1, patientId := 3, doctorId := 1, source := "online", priorityScore := 40,
    preferredDate := none, status := WaitingStatus.waiting, queuePosition := 1,
    allocatedTokenId := none, expiresAt := 1000, createdAt := 0 }

/-- State for the promotion witness. -/
def dbC3 : DB := { tokens := [], slots := [], waitings := [wC3], nextId := 9 }

theorem C3_witness :
    List.Sorted waitingRankLE ((waitingFor 1 dbC3).insertionSort waitingRankLE) ∧
    ∃ k, k ≤ ((waitingFor 1 dbC3).insertionSort waitingRankLE).length ∧
      (∀ x ∈ ((waitingFor 1 dbC3).insertionSort waitingRankLE).take k,
        statusOf (allocateFromWaitingQueue 1 50 dbC3) x.id = some WaitingStatus.allocated) ∧
      (∀ x ∈ ((waitingFor 1 dbC3).insertionSort waitingRankLE).drop k,
        statusOf (allocateFromWaitingQueue 1 50 dbC3) x.id = some WaitingStatus.waiting) :=
  C3_promotion_rank_order 1 50 dbC3 (by decide)
